import Mathlib

/-!
Verification of the tokeninfo-based OAuth2 bearer-token validation component
(`endpoints/context_dev.go`).

The Go code validates bearer tokens by querying the Google tokeninfo
introspection endpoint, applies freshness and email-verification checks,
matches the requested authorization scope against the token's space-delimited
granted scopes, and exposes the result through a small context type.

The shallow embedding below models:
  - the `tokeninfo` struct as `Endpoints.Tokeninfo`;
  - the outcome of the outbound HTTP GET (transport failure, or a status code
    plus the JSON-decode outcome of the body) as `Endpoints.HttpResult`;
  - every `error` value the Go code can return as a constructor of
    `Endpoints.Err`, tagged with the data the Go error message carries;
  - `fetchTokeninfo` as a pure function of the HTTP outcome;
  - `getScopedTokeninfo` parametrized by the token-extraction collaborator
    (`getToken`, defined in another file of the repository) and by the network
    (a function from request URL to `HttpResult`); its second component is the
    list of URLs for which an outbound introspection call was issued;
  - the `tokeninfoContext` methods `HTTPRequest`, `Namespace`,
    `CurrentOAuthClientID` and `CurrentOAuthUser`, with the App Engine
    namespace-derivation collaborator passed as a function argument.
-/

deriving instance DecidableEq for Except

namespace Endpoints

/-- Embedding of the Go struct `tokeninfo`: the decoded JSON body of a
tokeninfo-endpoint response. `ExpiresIn` is a Go `int`, modelled as `Int`. -/
structure Tokeninfo where
  issuedTo : String
  audience : String
  userID : String
  scope : String
  expiresIn : Int
  email : String
  verifiedEmail : Bool
  accessType : String
  errorDescription : String
deriving Repr, DecidableEq

/-- Every `error` value produced (or propagated) by the Go code, tagged by its
construction site. Opaque errors coming from collaborators (the HTTP client,
the JSON decoder, `appengine.Namespace`) are embedded as a constructor holding
the collaborator's message. -/
inductive Err where
  | transport (msg : String)
  | decode (msg : String)
  | remoteRejection (msg : String)
  | tokenExpired
  | unverifiedEmail (email : String)
  | invalidEmail
  | noTokenFound
  | scopeMismatch (granted requested : String)
  | namespaceError (msg : String)
deriving Repr, DecidableEq

/-- The message built for a non-OK tokeninfo response:
`"Error fetching tokeninfo (status %d)"` extended with `": " + ErrorDescription`
when the decoded error description is non-empty. -/
def remoteRejectionMsg (statusCode : Nat) (errorDescription : String) : String :=
  let errMsg := "Error fetching tokeninfo (status " ++ toString statusCode ++ ")"
  if errorDescription ≠ "" then errMsg ++ ": " ++ errorDescription else errMsg

/-- Outcome of the outbound `GET` to the tokeninfo endpoint: either a transport
failure from the HTTP client, or a response with a status code and the
JSON-decode outcome of its body (`Except.error` when the body is not valid
JSON for the `tokeninfo` shape). -/
inductive HttpResult where
  | failure (msg : String)
  | response (statusCode : Nat) (body : Except String Tokeninfo)
deriving Repr, DecidableEq

/-- Embedding of `fetchTokeninfo` as a pure function of the HTTP outcome.
Mirrors the Go control flow: propagate a transport error; decode the body
regardless of status; reject non-200 statuses; then check expiry, the
verified-email flag and non-emptiness of the email, in that order. -/
def fetchTokeninfo (resp : HttpResult) : Except Err Tokeninfo :=
  match resp with
  | .failure e => .error (.transport e)
  | .response statusCode body =>
    match body with
    | .error e => .error (.decode e)
    | .ok ti =>
      if statusCode ≠ 200 then
        .error (.remoteRejection (remoteRejectionMsg statusCode ti.errorDescription))
      else if ti.expiresIn ≤ 0 then
        .error .tokenExpired
      else if ti.verifiedEmail = false then
        .error (.unverifiedEmail ti.email)
      else if ti.email = "" then
        .error .invalidEmail
      else
        .ok ti

/-- `true` exactly when an introspection result is a remote-rejection failure. -/
def isRemoteRejectionResult : Except Err Tokeninfo → Bool
  | .error (.remoteRejection _) => true
  | _ => false

/-- Embedding of Go `strings.Split(s, sep)` for a single-character separator,
on character lists: slices the list into all sublists separated by `sep`.
The empty list yields `[[]]`, matching `strings.Split("", " ") = [""]`. -/
def splitList (sep : Char) : List Char → List (List Char)
  | [] => [[]]
  | ch :: rest =>
    let r := splitList sep rest
    if ch = sep then [] :: r
    else
      match r with
      | t :: ts => (ch :: t) :: ts
      | [] => [[ch]]

/-- Embedding of `strings.Split(s, " ")` on strings. -/
def stringsSplitSpace (s : String) : List String :=
  (splitList ' ' s.data).map String.mk

/-- The HTTP request carried by the context, modelled as an opaque identity. -/
structure Request where
  reqId : Nat
deriving Repr, DecidableEq

/-- The App Engine execution context embedded in `tokeninfoContext`, modelled
as an opaque identity. -/
structure PlatformContext where
  ctxId : Nat
deriving Repr, DecidableEq

/-- Embedding of `tokeninfoContext`: an embedded platform context plus the
original HTTP request. -/
structure TokeninfoContext where
  ctx : PlatformContext
  h : Request
deriving Repr, DecidableEq

/-- Embedding of `(*tokeninfoContext).HTTPRequest`. -/
def HTTPRequest (c : TokeninfoContext) : Request := c.h

/-- The constant `tokeninfoEndpointURL`. -/
def tokeninfoEndpointURL : String := "https://www.googleapis.com/oauth2/v2/tokeninfo"

/-- Embedding of `getScopedTokeninfo`, parametrized by the token-extraction
collaborator `getToken` (defined in another file of the repository; the spec
names it `extractToken(request) → string`) and by the network `net`, a
function from the request URL to the HTTP outcome. The second component of
the result is the trace of URLs for which an outbound introspection call was
issued. Scope matching iterates over `strings.Split(ti.Scope, " ")` looking
for a token equal to `scope`. -/
def getScopedTokeninfo (getToken : Request → String) (net : String → HttpResult)
    (c : TokeninfoContext) (scope : String) : Except Err Tokeninfo × List String :=
  let token := getToken (HTTPRequest c)
  if token = "" then
    (.error .noTokenFound, [])
  else
    let url := tokeninfoEndpointURL ++ "?access_token=" ++ token
    match fetchTokeninfo (net url) with
    | .error e => (.error e, [url])
    | .ok ti =>
      if (stringsSplitSpace ti.scope).contains scope then
        (.ok ti, [url])
      else
        (.error (.scopeMismatch ti.scope scope), [url])

/-- Embedding of `user.User`, reduced to the only field the code sets. -/
structure User where
  email : String
deriving Repr, DecidableEq

/-- Embedding of `(*tokeninfoContext).CurrentOAuthClientID`: the Go pair
`(string, error)` is modelled as `String × Option Err`. -/
def CurrentOAuthClientID (getToken : Request → String) (net : String → HttpResult)
    (c : TokeninfoContext) (scope : String) : String × Option Err :=
  match (getScopedTokeninfo getToken net c scope).fst with
  | .error e => ("", some e)
  | .ok ti => (ti.issuedTo, none)

/-- Embedding of `(*tokeninfoContext).CurrentOAuthUser`: the Go pair
`(*user.User, error)` is modelled as `Option User × Option Err`. -/
def CurrentOAuthUser (getToken : Request → String) (net : String → HttpResult)
    (c : TokeninfoContext) (scope : String) : Option User × Option Err :=
  match (getScopedTokeninfo getToken net c scope).fst with
  | .error e => (none, some e)
  | .ok ti => (some { email := ti.email }, none)

/-- Embedding of `(*tokeninfoContext).Namespace`, parametrized by the
`appengine.Namespace` collaborator. A platform failure is surfaced (the
opaque platform error is embedded as `Err.namespaceError`); on success a new
context is built from the derived platform context and the same request. -/
def Namespace (appengineNamespace : PlatformContext → String → Except String PlatformContext)
    (c : TokeninfoContext) (name : String) : Except Err TokeninfoContext :=
  match appengineNamespace c.ctx name with
  | .error e => .error (.namespaceError e)
  | .ok nc => .ok { ctx := nc, h := c.h }

/-! Concrete fixtures used by the example-based parts of the claims. -/

/-- A valid decoded tokeninfo body with the given granted-scope string. -/
def sampleTi (granted : String) : Tokeninfo :=
  { issuedTo := "client-123.apps.example", audience := "client-123.apps.example",
    userID := "108234", scope := granted, expiresIn := 3600,
    email := "dev@example.com", verifiedEmail := true, accessType := "online",
    errorDescription := "" }

/-- A valid body except that the verified-email flag is false and the email is
empty. -/
def tiUnverifiedNoEmail : Tokeninfo :=
  { sampleTi "scope1" with verifiedEmail := false, email := "" }

/-- A valid body that also carries a non-empty error description. -/
def tiSuccessWithError : Tokeninfo :=
  { sampleTi "scope1" with errorDescription := "invalid_token" }

/-- A valid body with the given remaining lifetime. -/
def tiExp (n : Int) : Tokeninfo :=
  { sampleTi "email profile" with expiresIn := n }

/-- A token extractor that always finds the token `tok-abc`. -/
def gT0 : Request → String := fun _ => "tok-abc"

/-- A network on which every URL yields a 200 response whose body decodes to
`sampleTi granted`. -/
def net0 (granted : String) : String → HttpResult :=
  fun _ => .response 200 (.ok (sampleTi granted))

/-- A concrete context. -/
def c0 : TokeninfoContext := { ctx := { ctxId := 0 }, h := { reqId := 0 } }

/-! Helper lemmas. -/

/-- No sublist produced by `splitList sep` contains the separator. -/
theorem splitList_not_mem_sep (sep : Char) :
    ∀ (l : List Char), ∀ t ∈ splitList sep l, sep ∉ t := by
  intro l
  induction l with
  | nil => simp [splitList]
  | cons ch rest ih =>
    intro t ht
    simp only [splitList] at ht
    split at ht
    · rcases List.mem_cons.mp ht with h1 | h2
      · subst h1; simp
      · exact ih t h2
    · rename_i hne
      rcases hr : splitList sep rest with _ | ⟨t0, ts⟩
      · rw [hr] at ht
        simp at ht
        subst ht
        intro hmem
        rcases List.mem_singleton.mp hmem with h
        exact hne h.symm
      · rw [hr] at ht
        rcases List.mem_cons.mp ht with h1 | h2
        · subst h1
          intro hmem
          rcases List.mem_cons.mp hmem with h3 | h4
          · exact hne h3.symm
          · exact ih t0 (by rw [hr]; exact List.mem_cons_self t0 ts) h4
        · exact ih t (by rw [hr]; exact List.mem_cons_of_mem t0 h2)

/-- No scope token produced by `stringsSplitSpace` contains a space. -/
theorem stringsSplitSpace_no_space (granted t : String)
    (ht : t ∈ stringsSplitSpace granted) : ' ' ∉ t.data := by
  rcases List.mem_map.mp ht with ⟨l, hl, hmk⟩
  have hdata : t.data = l := by rw [← hmk]
  rw [hdata]
  exact splitList_not_mem_sep ' ' granted.data l hl

/-! Claim theorems. -/

/-- Claim C1: for every introspection response with HTTP status 200 whose body
decodes to a tokeninfo with positive remaining lifetime, a verified email and a
non-empty email, `fetchTokeninfo` succeeds and returns exactly the decoded
tokeninfo, with no error. -/
theorem claim1_fetch_success (ti : Tokeninfo) (hexp : 0 < ti.expiresIn)
    (hver : ti.verifiedEmail = true) (hmail : ti.email ≠ "") :
    fetchTokeninfo (.response 200 (.ok ti)) = .ok ti := by
  have h1 : ¬ ti.expiresIn ≤ 0 := not_le.mpr hexp
  simp [fetchTokeninfo, h1, hver, hmail]

/-- Witness for C1 at a concrete decoded body. -/
theorem claim1_fetch_success_witness :
    fetchTokeninfo (.response 200 (.ok (sampleTi "email profile"))) =
      .ok (sampleTi "email profile") :=
  claim1_fetch_success (sampleTi "email profile") (by decide) (by decide) (by decide)

/-- Counterexample to claim C2 as stated: a non-200 response whose body does
not decode fails with the propagated decode error, not with a remote-rejection
error, so the failure kind is not independent of the body's content. -/
theorem claim2_counterexample :
    fetchTokeninfo (.response 400 (.error "unexpected end of JSON input")) =
      .error (.decode "unexpected end of JSON input") ∧
    isRemoteRejectionResult
      (fetchTokeninfo (.response 400 (.error "unexpected end of JSON input"))) = false :=
  ⟨rfl, rfl⟩

/-- Claim C2 (amended): for every non-200 response whose body decodes to a
tokeninfo, `fetchTokeninfo` fails with a remote-rejection error whatever the
decoded fields are, and the message carries the status code and, when the
decoded error description is non-empty, that description. -/
theorem claim2_fetch_non_ok (statusCode : Nat) (ti : Tokeninfo)
    (h : statusCode ≠ 200) :
    fetchTokeninfo (.response statusCode (.ok ti)) =
      .error (.remoteRejection (remoteRejectionMsg statusCode ti.errorDescription)) ∧
    (ti.errorDescription ≠ "" →
      remoteRejectionMsg statusCode ti.errorDescription =
        "Error fetching tokeninfo (status " ++ toString statusCode ++ "): "
          ++ ti.errorDescription) ∧
    (ti.errorDescription = "" →
      remoteRejectionMsg statusCode ti.errorDescription =
        "Error fetching tokeninfo (status " ++ toString statusCode ++ ")") := by
  refine ⟨by simp [fetchTokeninfo, h], ?_, ?_⟩
  · intro hd
    simp only [remoteRejectionMsg, if_pos hd]
    simp [String.append_assoc]
  · intro hd
    simp [remoteRejectionMsg, hd]

/-- Witness for C2 (amended) at a concrete 400 response. -/
theorem claim2_fetch_non_ok_witness :
    fetchTokeninfo (.response 400 (.ok tiSuccessWithError)) =
      .error (.remoteRejection (remoteRejectionMsg 400 tiSuccessWithError.errorDescription)) :=
  (claim2_fetch_non_ok 400 tiSuccessWithError (by decide)).1

/-- Claim C4: for every decoded 200 response, `fetchTokeninfo` fails with the
token-expired error exactly when the remaining lifetime is at most 0; in
particular lifetimes 0 and -5 fail with token-expired while lifetime 1 (other
validity conditions holding) succeeds — the boundary is at 0. -/
theorem claim4_expiry_boundary :
    (∀ ti : Tokeninfo,
        fetchTokeninfo (.response 200 (.ok ti)) = .error .tokenExpired ↔
          ti.expiresIn ≤ 0) ∧
    fetchTokeninfo (.response 200 (.ok (tiExp 0))) = .error .tokenExpired ∧
    fetchTokeninfo (.response 200 (.ok (tiExp (-5)))) = .error .tokenExpired ∧
    fetchTokeninfo (.response 200 (.ok (tiExp 1))) = .ok (tiExp 1) := by
  refine ⟨?_, by decide, by decide, by decide⟩
  intro ti
  by_cases hexp : ti.expiresIn ≤ 0
  · simp [fetchTokeninfo, hexp]
  · simp only [fetchTokeninfo]
    simp only [if_neg hexp]
    simp only [ne_eq, not_true_eq_false, if_false]
    constructor
    · intro h
      split at h
      · simp_all
      · split at h <;> simp_all
    · intro h
      exact absurd h hexp

/-- Witness for C4: the general boundary equivalence applied at lifetime -7. -/
theorem claim4_expiry_boundary_witness :
    fetchTokeninfo (.response 200 (.ok (tiExp (-7)))) = .error .tokenExpired :=
  (claim4_expiry_boundary.1 (tiExp (-7))).mpr (by decide)

/-- Claim C5: for every decoded 200 response with positive remaining lifetime
and an unverified email flag, `fetchTokeninfo` fails with the unverified-email
error naming the decoded email; the check runs after the expiry check and
before the empty-email check, so it fires in particular when the email field
is empty. -/
theorem claim5_unverified_email :
    (∀ ti : Tokeninfo, 0 < ti.expiresIn → ti.verifiedEmail = false →
        fetchTokeninfo (.response 200 (.ok ti)) = .error (.unverifiedEmail ti.email)) ∧
    fetchTokeninfo (.response 200 (.ok tiUnverifiedNoEmail)) =
      .error (.unverifiedEmail "") := by
  refine ⟨?_, by decide⟩
  intro ti hexp hver
  have h1 : ¬ ti.expiresIn ≤ 0 := not_le.mpr hexp
  simp [fetchTokeninfo, h1, hver]

/-- Witness for C5 at a concrete unverified body. -/
theorem claim5_unverified_email_witness :
    fetchTokeninfo (.response 200 (.ok tiUnverifiedNoEmail)) =
      .error (.unverifiedEmail tiUnverifiedNoEmail.email) :=
  claim5_unverified_email.1 tiUnverifiedNoEmail (by decide) (by decide)

/-- Claim C3: scope matching in `getScopedTokeninfo` splits the granted scope
string on the single-space delimiter and succeeds exactly when the requested
scope is string-equal to one of the resulting tokens, failing otherwise with a
scope-mismatch error reporting the full granted string and the requested
scope; concretely, granted `a b c` matches requested `b` and rejects `d`, and
the empty granted string matches the empty requested scope and rejects `x`. -/
theorem claim3_scope_matching :
    (∀ (getToken : Request → String) (net : String → HttpResult)
        (c : TokeninfoContext) (scope : String) (ti : Tokeninfo),
        getToken (HTTPRequest c) ≠ "" →
        fetchTokeninfo
            (net (tokeninfoEndpointURL ++ "?access_token=" ++ getToken (HTTPRequest c))) =
          .ok ti →
        ((getScopedTokeninfo getToken net c scope).fst = .ok ti ↔
            scope ∈ stringsSplitSpace ti.scope) ∧
          (scope ∉ stringsSplitSpace ti.scope →
            (getScopedTokeninfo getToken net c scope).fst =
              .error (.scopeMismatch ti.scope scope))) ∧
    (getScopedTokeninfo gT0 (net0 "a b c") c0 "b").fst = .ok (sampleTi "a b c") ∧
    (getScopedTokeninfo gT0 (net0 "a b c") c0 "d").fst =
      .error (.scopeMismatch "a b c" "d") ∧
    (getScopedTokeninfo gT0 (net0 "") c0 "").fst = .ok (sampleTi "") ∧
    (getScopedTokeninfo gT0 (net0 "") c0 "x").fst =
      .error (.scopeMismatch "" "x") := by
  refine ⟨?_, by decide, by decide, by decide, by decide⟩
  intro getToken net c scope ti htok hfetch
  by_cases hmem : scope ∈ stringsSplitSpace ti.scope
  · constructor
    · constructor
      · intro _; exact hmem
      · intro _
        simp only [getScopedTokeninfo, if_neg htok, hfetch]
        simp [hmem]
    · intro hnot; exact absurd hmem hnot
  · constructor
    · constructor
      · intro hok
        exfalso
        simp only [getScopedTokeninfo, if_neg htok, hfetch] at hok
        simp [hmem] at hok
      · intro h; exact absurd h hmem
    · intro _
      simp only [getScopedTokeninfo, if_neg htok, hfetch]
      simp [hmem]

/-- Witness for C3: the general matching equivalence applied at a concrete
granted string and requested scope. -/
theorem claim3_scope_matching_witness :
    (getScopedTokeninfo gT0 (net0 "read write") c0 "write").fst =
      .ok (sampleTi "read write") :=
  ((claim3_scope_matching.1 gT0 (net0 "read write") c0 "write"
      (sampleTi "read write") (by decide) (by decide)).1).mpr (by decide)

/-- Claim C6: when the extracted bearer token is empty, `getScopedTokeninfo`
fails with the no-token error and the trace of outbound introspection calls is
empty: the introspector is never invoked. -/
theorem claim6_no_token (getToken : Request → String) (net : String → HttpResult)
    (c : TokeninfoContext) (scope : String) (h : getToken (HTTPRequest c) = "") :
    getScopedTokeninfo getToken net c scope = (.error .noTokenFound, []) := by
  simp [getScopedTokeninfo, h]

/-- Witness for C6 with an extractor that finds no token. -/
theorem claim6_no_token_witness :
    getScopedTokeninfo (fun _ => "") (net0 "a b c") c0 "b" =
      (.error .noTokenFound, []) :=
  claim6_no_token (fun _ => "") (net0 "a b c") c0 "b" (by decide)

/-- Counterexample to claim C7 as stated: `fetchTokeninfo` never inspects the
decoded error description on the 200 path, so a successful introspection can
return a tokeninfo whose error description is non-empty. -/
theorem claim7_counterexample :
    fetchTokeninfo (.response 200 (.ok tiSuccessWithError)) = .ok tiSuccessWithError ∧
    tiSuccessWithError.errorDescription ≠ "" :=
  ⟨rfl, by decide⟩

/-- Claim C7 (amended): the either/or shape of a tokeninfo body is an
expectation about endpoint responses, not enforced by the code; what a
successful introspection does guarantee is that the response had status 200,
that its body decoded to the returned tokeninfo, and that the returned
tokeninfo has a positive remaining lifetime, a verified email flag and a
non-empty email — the error description is not checked and may be non-empty. -/
theorem claim7_success_guarantees (resp : HttpResult) (ti : Tokeninfo)
    (h : fetchTokeninfo resp = .ok ti) :
    resp = .response 200 (.ok ti) ∧ 0 < ti.expiresIn ∧
      ti.verifiedEmail = true ∧ ti.email ≠ "" := by
  cases resp with
  | failure e => simp [fetchTokeninfo] at h
  | response sc body =>
    cases body with
    | error e => simp [fetchTokeninfo] at h
    | ok ti0 =>
      simp only [fetchTokeninfo] at h
      split at h
      · simp at h
      · split at h
        · simp at h
        · split at h
          · simp at h
          · split at h
            · simp at h
            · rename_i h200 hexp hver hmail
              have hti : ti0 = ti := by simpa using h
              subst hti
              have hsc : sc = 200 := by
                by_contra hne
                exact h200 hne
              subst hsc
              refine ⟨rfl, by omega, ?_, hmail⟩
              cases hb : ti0.verifiedEmail
              · exact absurd hb hver
              · rfl

/-- Witness for C7 (amended) at a concrete successful introspection. -/
theorem claim7_success_guarantees_witness :
    (0 : Int) < (sampleTi "scope1").expiresIn ∧
      (sampleTi "scope1").verifiedEmail = true ∧ (sampleTi "scope1").email ≠ "" :=
  (claim7_success_guarantees (.response 200 (.ok (sampleTi "scope1")))
      (sampleTi "scope1") (by decide)).2

/-- Claim C8: `CurrentOAuthClientID` returns exactly the tokeninfo's issued-to
field with no error when the scoped resolution succeeds, and the empty string
with the unchanged resolver error when it fails; `CurrentOAuthUser` returns a
user whose email is the tokeninfo's email on success, and no user with the
unchanged resolver error on failure. -/
theorem claim8_accessors (getToken : Request → String) (net : String → HttpResult)
    (c : TokeninfoContext) (scope : String) :
    (∀ ti : Tokeninfo, (getScopedTokeninfo getToken net c scope).fst = .ok ti →
        CurrentOAuthClientID getToken net c scope = (ti.issuedTo, none) ∧
        CurrentOAuthUser getToken net c scope = (some { email := ti.email }, none)) ∧
    (∀ e : Err, (getScopedTokeninfo getToken net c scope).fst = .error e →
        CurrentOAuthClientID getToken net c scope = ("", some e) ∧
        CurrentOAuthUser getToken net c scope = (none, some e)) := by
  constructor
  · intro ti h
    constructor
    · simp [CurrentOAuthClientID, h]
    · simp [CurrentOAuthUser, h]
  · intro e h
    constructor
    · simp [CurrentOAuthClientID, h]
    · simp [CurrentOAuthUser, h]

/-- Witness for C8: both accessors evaluated on a concrete successful
resolution and on a concrete failing one. -/
theorem claim8_accessors_witness :
    (CurrentOAuthClientID gT0 (net0 "a b c") c0 "b" =
        ((sampleTi "a b c").issuedTo, none) ∧
      CurrentOAuthUser gT0 (net0 "a b c") c0 "b" =
        (some { email := (sampleTi "a b c").email }, none)) ∧
    (CurrentOAuthClientID (fun _ => "") (net0 "a b c") c0 "b" =
        ("", some .noTokenFound) ∧
      CurrentOAuthUser (fun _ => "") (net0 "a b c") c0 "b" =
        (none, some .noTokenFound)) :=
  ⟨(claim8_accessors gT0 (net0 "a b c") c0 "b").1 (sampleTi "a b c") (by decide),
    (claim8_accessors (fun _ => "") (net0 "a b c") c0 "b").2 .noTokenFound (by decide)⟩

/-- Claim C9: on success of the platform's namespace derivation, `Namespace`
returns a new context wrapping the derived platform context and the identical
request, so its `HTTPRequest` is the original's; when the derived platform
context is distinct from the original's, the new context is distinct from the
original. On platform failure the platform error is surfaced as the
namespace error and no context is returned. -/
theorem claim9_namespace
    (appengineNamespace : PlatformContext → String → Except String PlatformContext)
    (c : TokeninfoContext) (name : String) :
    (∀ nc : PlatformContext, appengineNamespace c.ctx name = .ok nc →
        Namespace appengineNamespace c name = .ok { ctx := nc, h := c.h } ∧
        HTTPRequest { ctx := nc, h := c.h } = HTTPRequest c ∧
        (nc ≠ c.ctx → ({ ctx := nc, h := c.h } : TokeninfoContext) ≠ c)) ∧
    (∀ e : String, appengineNamespace c.ctx name = .error e →
        Namespace appengineNamespace c name = .error (.namespaceError e)) := by
  constructor
  · intro nc h
    refine ⟨by simp [Namespace, h], rfl, ?_⟩
    intro hne heq
    apply hne
    have hctx := congrArg TokeninfoContext.ctx heq
    simpa using hctx
  · intro e h
    simp [Namespace, h]

/-- Witness for C9: a platform derivation that returns a fresh platform
context, and one that fails. -/
theorem claim9_namespace_witness :
    (Namespace (fun _ _ => .ok { ctxId := 1 }) c0 "ns" =
        .ok { ctx := { ctxId := 1 }, h := c0.h } ∧
      ({ ctx := { ctxId := 1 }, h := c0.h } : TokeninfoContext) ≠ c0) ∧
    Namespace (fun _ _ => .error "namespace unavailable") c0 "ns" =
      .error (.namespaceError "namespace unavailable") := by
  refine ⟨⟨?_, ?_⟩, ?_⟩
  · exact ((claim9_namespace (fun _ _ => .ok { ctxId := 1 }) c0 "ns").1
      { ctxId := 1 } (by decide)).1
  · exact ((claim9_namespace (fun _ _ => .ok { ctxId := 1 }) c0 "ns").1
      { ctxId := 1 } (by decide)).2.2 (by decide)
  · exact (claim9_namespace (fun _ _ => .error "namespace unavailable") c0 "ns").2
      "namespace unavailable" (by decide)

/-- Claim C10: a scope token produced by splitting on single spaces never
contains a space, so a requested scope containing a space never matches any
granted scope string; and granted strings with consecutive or trailing spaces
yield empty-string tokens, so the empty requested scope matches not only the
empty granted string but also granted strings such as `a  b` and `a ` — as
`getScopedTokeninfo` then confirms on those granted strings. -/
theorem claim10_split_behavior :
    (∀ granted requested : String, ' ' ∈ requested.data →
        (stringsSplitSpace granted).contains requested = false) ∧
    "" ∈ stringsSplitSpace "a  b" ∧
    "" ∈ stringsSplitSpace "a " ∧
    "" ∈ stringsSplitSpace "" ∧
    (getScopedTokeninfo gT0 (net0 "a  b") c0 "").fst = .ok (sampleTi "a  b") ∧
    (getScopedTokeninfo gT0 (net0 "a ") c0 "").fst = .ok (sampleTi "a ") := by
  refine ⟨?_, by decide, by decide, by decide, by decide, by decide⟩
  intro granted requested hsp
  by_contra hc
  have hmem : requested ∈ stringsSplitSpace granted := by
    cases h : (stringsSplitSpace granted).contains requested
    · exact absurd h hc
    · simpa using h
  exact stringsSplitSpace_no_space granted requested hmem hsp

/-- Witness for C10: a requested scope with an internal space matches no token
of the very granted string it was cut from. -/
theorem claim10_split_behavior_witness :
    (stringsSplitSpace "a b c").contains "b c" = false :=
  claim10_split_behavior.1 "a b c" "b c" (by decide)

end Endpoints
